import Mathlib

/-!
# Verification of the single-seat bid adaptation core (`exchange/bidder.go`)

This file gives a shallow embedding of `src/exchange/bidder.go` and proves
properties of it.  Pointers become `Option`, Go slices become `List`,
`float64` prices and conversion rates become `ℚ`, and the two collaborator
interfaces (`adapters.Bidder`, `currencies.Conversions`) become records of
pure functions.  The HTTP layer is abstracted as an oracle mapping an
outbound request to its transport outcome; the result-collection loop of
`requestBid` is modelled as a fold over the arrival-ordered list of
`httpCallInfo` values drained from the response channel.

A Go runtime panic (nil-pointer dereference) is modelled by an `Option`
result on the functions that can panic: `none` means the Go code crashes
instead of returning.
-/

set_option autoImplicit false

namespace PrebidBidder

/-- Go `http.Header` / request headers: an association list. -/
abbrev Headers := List (String × String)

/-- `openrtb_ext.BidType` (banner / video / native / audio). -/
inductive BidType where
  | banner
  | video
  | native
  | audio
deriving DecidableEq, Repr

/-- `nativeResponse.Image`: only the `Type` field (here `Typ`; `Type` is reserved in Lean) is touched by the code;
`url` stands for the remaining (untouched) payload fields. -/
structure RespImage where
  Typ : Int
  url : String
deriving DecidableEq, Repr

/-- `nativeResponse.Data`: only the `Type` field (here `Typ`; `Type` is reserved in Lean) is touched by the code. -/
structure RespDataAsset where
  Typ : Int
  value : String
deriving DecidableEq, Repr

/-- `nativeResponse.Asset`: the fields read or written by `setAssetTypes`.
`Img` and `Data` are pointers in Go, hence `Option`. -/
structure RespAsset where
  ID : Int
  Img : Option RespImage
  Data : Option RespDataAsset
deriving DecidableEq, Repr

/-- `nativeResponse.Response`: the native markup parsed from `bid.AdM`.
`link` stands for all payload fields other than `Assets`, which the code
round-trips untouched. -/
structure NativeResp where
  Assets : List RespAsset
  link : String
deriving DecidableEq, Repr

/-- `nativeRequests.Image` (request side): only `Type` (here `Typ`) is read. -/
structure ReqImage where
  Typ : Int
deriving DecidableEq, Repr

/-- `nativeRequests.Data` (request side): only `Type` (here `Typ`) is read. -/
structure ReqDataAsset where
  Typ : Int
deriving DecidableEq, Repr

/-- `nativeRequests.Asset`. -/
structure ReqAsset where
  ID : Int
  Img : Option ReqImage
  Data : Option ReqDataAsset
deriving DecidableEq, Repr

/-- `nativeRequests.Request`: the impression's native request payload. -/
structure NativeReq where
  Assets : List ReqAsset
deriving DecidableEq, Repr

/-- The impression's raw native request JSON (`openrtb.Native.Request`),
classified by what Go `json.Unmarshal` into a `nativeRequests.Request`
value does with it: `malformed` = Unmarshal returns an error (the payload
is then left zero-valued and the code continues with it); `wellFormed` =
it decodes to the given payload. -/
inductive NativeReqVal where
  | malformed (raw : String)
  | wellFormed (payload : NativeReq)
deriving DecidableEq, Repr

/-- The bid's `AdM` markup string, classified by what Go `json.Unmarshal`
into a `*nativeResponse.Response` does with it:
* `invalid` — Unmarshal returns an error (malformed JSON or wrong shape);
* `jnull`   — the JSON literal `null`: Unmarshal succeeds and sets the
  pointer to `nil`;
* `jresp`   — it decodes to the given markup payload.
Serialisation (`json.Marshal`) of a markup value is `jresp` itself, so
two markups serialise to the same JSON (modulo key order) iff they are
equal as values. -/
inductive AdmVal where
  | invalid (raw : String)
  | jnull
  | jresp (payload : NativeResp)
deriving DecidableEq, Repr

/-- `openrtb.Bid`: the fields the core reads or writes. -/
structure Bid where
  ID : String
  ImpID : String
  Price : ℚ
  AdM : AdmVal
  Ext : String
deriving DecidableEq, Repr

/-- `openrtb.Native` inside an impression. -/
structure NativeObj where
  Request : NativeReqVal
deriving DecidableEq, Repr

/-- `openrtb.Imp`: the fields the core reads. -/
structure Impression where
  ID : String
  Native : Option NativeObj
deriving DecidableEq, Repr

/-- `openrtb.BidRequest`: the fields the core reads (`Test`, `App`, `Cur`,
`Imp`); `Cur` is the only field it ever writes. -/
structure BidRequest where
  Test : Int
  App : Option Unit
  Cur : List String
  Imp : List Impression
deriving DecidableEq, Repr

/-- `adapters.RequestData`: one outbound HTTP request descriptor. -/
structure RequestData where
  Method : String
  Uri : String
  Body : String
  Headers : Headers
deriving DecidableEq, Repr

/-- `adapters.ResponseData`: status, body and headers of a server reply. -/
structure ResponseData where
  StatusCode : Int
  Body : String
  Headers : Headers
deriving DecidableEq, Repr

/-- The error taxonomy of `errortypes` plus a `generic` constructor for
plain Go `error` values (plugin errors, transport errors, `fmt.Errorf`). -/
inductive PbsError where
  | failedToRequestBids (msg : String)
  | timeout (msg : String)
  | badServerResponse (msg : String)
  | generic (msg : String)
deriving DecidableEq, Repr

/-- `openrtb_ext.ExtBidPrebidVideo` (opaque to the core). -/
structure ExtBidPrebidVideo where
  Duration : Int
  PrimaryCategory : String
deriving DecidableEq, Repr

/-- `adapters.TypedBid`: one entry of the plugin's parsed response. -/
structure TypedBid where
  Bid : Option Bid
  BidType : BidType
  BidVideo : Option ExtBidPrebidVideo
  DealPriority : Int
deriving DecidableEq, Repr

/-- `adapters.BidderResponse`. -/
structure BidderResponse where
  Currency : String
  Bids : List TypedBid
deriving DecidableEq, Repr

/-- `openrtb_ext.ExtHttpCall`: one debug trace entry. -/
structure ExtHttpCall where
  Uri : String
  RequestBody : String
  ResponseBody : String
  Status : Int
deriving DecidableEq, Repr

/-- `pbsOrtbBid`. -/
structure pbsOrtbBid where
  bid : Option Bid
  bidType : BidType
  bidTargets : List (String × String)
  bidVideo : Option ExtBidPrebidVideo
  dealPriority : Int
deriving DecidableEq, Repr

/-- `pbsOrtbSeatBid`. -/
structure pbsOrtbSeatBid where
  bids : List pbsOrtbBid
  currency : String
  httpCalls : List ExtHttpCall
  ext : String
deriving DecidableEq, Repr

/-- `httpCallInfo`: what `doRequest` hands to the collection loop.  All
pointer fields are `Option`. -/
structure httpCallInfo where
  request : Option RequestData
  response : Option ResponseData
  err : Option PbsError
deriving DecidableEq, Repr

/-- The plugin contract (`adapters.Bidder`): two pure functions. -/
structure Bidder where
  MakeRequests : BidRequest → List RequestData × List PbsError
  MakeBids : BidRequest → Option RequestData → Option ResponseData → Option BidderResponse × List PbsError

/-- `currencies.Conversions`: `GetRate(from, to)` returns a rate or an
error. -/
structure Conversions where
  GetRate : String → String → Except PbsError ℚ

/-! ## Native enrichment (`addNativeTypes`, `setAssetTypes`, lookups) -/

/-- `getNativeImpByImpID`: linear scan of `request.Imp` for a matching ID
with a non-nil `Native`. -/
def findNativeImp (impID : String) : List Impression → Except PbsError NativeObj
  | [] => Except.error (PbsError.generic "Could not find native imp")
  | imp :: rest =>
    if imp.ID = impID ∧ imp.Native.isSome then
      Except.ok (imp.Native.getD ⟨NativeReqVal.malformed ""⟩)
    else
      findNativeImp impID rest

def getNativeImpByImpID (impID : String) (request : BidRequest) : Except PbsError NativeObj :=
  findNativeImp impID request.Imp

/-- `getAssetByID`: linear scan of the request payload's assets. -/
def getAssetByID (id : Int) : List ReqAsset → Except PbsError ReqAsset
  | [] => Except.error (PbsError.generic ("Unable to find asset with ID:" ++ toString id ++ " in the request"))
  | a :: rest => if id = a.ID then Except.ok a else getAssetByID id rest

/-- The `asset.Img` half of `setAssetTypes`.  In Go the type is copied in
place through the `*Image` pointer; here the updated asset is returned.
An error return in Go exits `setAssetTypes` before the `Data` half runs. -/
def setImgType (asset : RespAsset) (assets : List ReqAsset) : RespAsset × Option PbsError :=
  match asset.Img with
  | none => (asset, none)
  | some img =>
    match getAssetByID asset.ID assets with
    | Except.error e => (asset, some e)
    | Except.ok tempAsset =>
      match tempAsset.Img with
      | none => (asset, some (PbsError.generic ("Response has an Image asset with ID:" ++ toString asset.ID ++ " present that doesn't exist in the request")))
      | some timg =>
        if timg.Typ ≠ 0 then ({asset with Img := some {img with Typ := timg.Typ}}, none)
        else (asset, none)

/-- The `asset.Data` half of `setAssetTypes`. -/
def setDataType (asset : RespAsset) (assets : List ReqAsset) : RespAsset × Option PbsError :=
  match asset.Data with
  | none => (asset, none)
  | some dat =>
    match getAssetByID asset.ID assets with
    | Except.error e => (asset, some e)
    | Except.ok tempAsset =>
      match tempAsset.Data with
      | none => (asset, some (PbsError.generic ("Response has a Data asset with ID:" ++ toString asset.ID ++ " present that doesn't exist in the request")))
      | some tdat =>
        if tdat.Typ ≠ 0 then ({asset with Data := some {dat with Typ := tdat.Typ}}, none)
        else (asset, none)

/-- `setAssetTypes`: the `Img` half, then (only if it did not error) the
`Data` half. -/
def setAssetTypes (asset : RespAsset) (nativePayload : NativeReq) : RespAsset × Option PbsError :=
  match setImgType asset nativePayload.Assets with
  | (a, some e) => (a, some e)
  | (a, none) => setDataType a nativePayload.Assets

/-- `addNativeTypes`.  The result is `none` when the Go code panics:
* the `bid` pointer is nil (reading `bid.AdM` dereferences it), or
* `bid.AdM` is the JSON literal `null`, so `json.Unmarshal` succeeds with
  a nil `nativeMarkup` pointer and `len(nativeMarkup.Assets)` dereferences
  it.
Otherwise the result carries the (possibly updated) markup — `none` inside
when enrichment was skipped — and the accumulated errors.  `json.Marshal`
of the markup structures cannot fail, so the marshal-error branch of the
caller is dead in this model. -/
def addNativeTypes (bid : Option Bid) (request : BidRequest) :
    Option (Option NativeResp × List PbsError) :=
  match bid with
  | none => none
  | some b =>
    match b.AdM with
    | AdmVal.invalid _ => some (none, [])
    | AdmVal.jnull => none
    | AdmVal.jresp nativeMarkup =>
      if nativeMarkup.Assets.length = 0 then some (none, [])
      else
        match getNativeImpByImpID b.ImpID request with
        | Except.error e => some (none, [e])
        | Except.ok nativeImp =>
          let payloadAndErrs :=
            match nativeImp.Request with
            | NativeReqVal.malformed raw =>
              (NativeReq.mk [], [PbsError.generic ("invalid native request payload: " ++ raw)])
            | NativeReqVal.wellFormed p => (p, ([] : List PbsError))
          let results := nativeMarkup.Assets.map (fun a => setAssetTypes a payloadAndErrs.1)
          some (some {nativeMarkup with Assets := results.map Prod.fst},
                payloadAndErrs.2 ++ results.filterMap Prod.snd)

/-! ## The collection loop of `requestBid` -/

/-- `makeExt`: builds one debug trace entry from a call result.  When
`err == nil` the Go code reads `httpInfo.request` and `httpInfo.response`
directly; `doRequest` always populates both on that path, and the model
substitutes Go zero values should they be absent. -/
def makeExt (info : httpCallInfo) : ExtHttpCall :=
  match info.err with
  | none =>
    { Uri := (info.request.map RequestData.Uri).getD ""
      RequestBody := (info.request.map RequestData.Body).getD ""
      ResponseBody := (info.response.map ResponseData.Body).getD ""
      Status := (info.response.map ResponseData.StatusCode).getD 0 }
  | some _ =>
    match info.request with
    | none => { Uri := "", RequestBody := "", ResponseBody := "", Status := 0 }
    | some rq => { Uri := rq.Uri, RequestBody := rq.Body, ResponseBody := "", Status := 0 }

/-- Outcome of the currency loop (`for _, bidReqCur := range request.Cur`):
first successful `GetRate` wins; otherwise `err` holds the *last* failure;
`empty` is the zero-iteration case (`err == nil`, rate left `0`,
`seatBid.currency` untouched). -/
inductive RateResult where
  | ok (cur : String) (rate : ℚ)
  | fail (lastErr : PbsError)
  | empty
deriving DecidableEq, Repr

def findRate (conversions : Conversions) (fromCur : String) : List String → RateResult
  | [] => RateResult.empty
  | c :: rest =>
    match conversions.GetRate fromCur c with
    | Except.ok r => RateResult.ok c r
    | Except.error e =>
      match findRate conversions fromCur rest with
      | RateResult.empty => RateResult.fail e
      | r => r

/-- Lines 143-145: default the response currency to USD. -/
def normalizeRespCurrency (br : BidderResponse) : BidderResponse :=
  if br.Currency = "" then {br with Currency := "USD"} else br

/-- Lines 146-148: the single permitted mutation of the borrowed request. -/
def normalizeReqCur (r : BidRequest) : BidRequest :=
  if r.Cur = [] then {r with Cur := ["USD"]} else r

/-- Lines 187-192 (with the price update of lines 183-186 fused in): one
`pbsOrtbBid` from one `TypedBid`.  The price update is skipped when the
bid pointer is nil; `bidTargets` is left at its zero value. -/
def mkPbsOrtbBid (bidAdjustment conversionRate : ℚ) (tb : TypedBid) : pbsOrtbBid :=
  { bid := tb.Bid.map (fun b => {b with Price := b.Price * bidAdjustment * conversionRate})
    bidType := tb.BidType
    bidTargets := []
    bidVideo := tb.BidVideo
    dealPriority := tb.DealPriority }

/-- Lines 163-179: the native-enrichment pass over `bidResponse.Bids`.
`none` models the panic propagating out of `addNativeTypes`.  The Go code
mutates `bidResponse.Bids[i].Bid.AdM` through the bid pointer; here the
updated list is rebuilt. -/
def enrichNativeBids (request : BidRequest) : List TypedBid → Option (List TypedBid × List PbsError)
  | [] => some ([], [])
  | tb :: rest =>
    if tb.BidType = BidType.native then
      match addNativeTypes tb.Bid request with
      | none => none
      | some (markupOpt, es) =>
        let tb' :=
          match markupOpt with
          | some m => {tb with Bid := tb.Bid.map (fun b => {b with AdM := AdmVal.jresp m})}
          | none => tb
        match enrichNativeBids request rest with
        | none => none
        | some (rest', es') => some (tb' :: rest', es ++ es')
    else
      match enrichNativeBids request rest with
      | none => none
      | some (rest', es') => some (tb :: rest', es')

/-- The `if request.App != nil` guard of line 163. -/
def enrichStep (request : BidRequest) (bids : List TypedBid) : Option (List TypedBid × List PbsError) :=
  if request.App.isSome then enrichNativeBids request bids else some (bids, [])

/-- The collector's running state: the borrowed request (mutable through
`Cur`), the seat bid being accumulated, and the error list. -/
structure CollectState where
  Request : BidRequest
  seatBid : pbsOrtbSeatBid
  errs : List PbsError
deriving DecidableEq, Repr

/-- Lines 132-135: capture a debug trace when `request.Test == 1`. -/
def traceStep (st : CollectState) (info : httpCallInfo) : CollectState :=
  if st.Request.Test = 1 then
    {st with seatBid := {st.seatBid with httpCalls := st.seatBid.httpCalls ++ [makeExt info]}}
  else st

/-- Lines 141-198: handle one non-nil `bidResponse`.  `none` models the
panic propagating out of the native-enrichment pass. -/
def processBidResponse (bidAdjustment : ℚ) (conversions : Conversions)
    (st : CollectState) (br0 : BidderResponse) : Option CollectState :=
  let br := normalizeRespCurrency br0
  let stA := {st with Request := normalizeReqCur st.Request}
  match findRate conversions br.Currency stA.Request.Cur with
  | RateResult.ok c rate =>
    let stB := {stA with seatBid := {stA.seatBid with currency := c}}
    match enrichStep stB.Request br.Bids with
    | none => none
    | some (bids', nerrs) =>
      some {stB with
        errs := stB.errs ++ nerrs
        seatBid := {stB.seatBid with bids := stB.seatBid.bids ++ bids'.map (mkPbsOrtbBid bidAdjustment rate)}}
  | RateResult.fail e =>
    match enrichStep stA.Request br.Bids with
    | none => none
    | some (_, nerrs) =>
      some {stA with errs := stA.errs ++ nerrs ++ [e]}
  | RateResult.empty =>
    -- Zero-iteration loop: `err` is nil and `conversionRate` is the Go
    -- zero value 0; unreachable after `normalizeReqCur`.
    match enrichStep stA.Request br.Bids with
    | none => none
    | some (bids', nerrs) =>
      some {stA with
        errs := stA.errs ++ nerrs
        seatBid := {stA.seatBid with bids := stA.seatBid.bids ++ bids'.map (mkPbsOrtbBid bidAdjustment 0)}}

/-- Lines 130-202: the body of the result-collection loop, for one drained
`httpCallInfo`. -/
def collectResult (bidder : Bidder) (bidAdjustment : ℚ) (conversions : Conversions)
    (st : CollectState) (info : httpCallInfo) : Option CollectState :=
  let st1 := traceStep st info
  match info.err with
  | some e => some {st1 with errs := st1.errs ++ [e]}
  | none =>
    let mk := bidder.MakeBids st1.Request info.request info.response
    let st2 := {st1 with errs := st1.errs ++ mk.2}
    match mk.1 with
    | none => some st2
    | some br0 => processBidResponse bidAdjustment conversions st2 br0

/-- The collection loop over the arrival-ordered results. -/
def foldResults (bidder : Bidder) (bidAdjustment : ℚ) (conversions : Conversions) :
    CollectState → List httpCallInfo → Option CollectState
  | st, [] => some st
  | st, info :: rest =>
    match collectResult bidder bidAdjustment conversions st info with
    | none => none
    | some st' => foldResults bidder bidAdjustment conversions st' rest

/-- Lines 121-126: the seat bid before any result is processed. -/
def initSeatBid : pbsOrtbSeatBid :=
  { bids := [], currency := "USD", httpCalls := [], ext := "" }

/-- `bidderAdapter.requestBid`.  `httpRun` abstracts the dispatch phase:
it maps the outbound requests to the arrival-ordered list of call results
drained from the response channel (each entry is `doRequest` of one
outbound request; arrival order is unspecified).  The returned triple is
`(seat bid or nil, errors, final state of the borrowed request)`; the
outer `Option` is `none` when the collection loop panics. -/
def requestBid (bidder : Bidder) (httpRun : List RequestData → List httpCallInfo)
    (request : BidRequest) (bidAdjustment : ℚ) (conversions : Conversions) :
    Option (Option pbsOrtbSeatBid × List PbsError × BidRequest) :=
  let reqData := (bidder.MakeRequests request).1
  let errs := (bidder.MakeRequests request).2
  if reqData = [] then
    if errs = [] then
      some (none, [PbsError.failedToRequestBids "The adapter failed to generate any bid requests, but also failed to generate an error explaining why"], request)
    else
      some (none, errs, request)
  else
    match foldResults bidder bidAdjustment conversions ⟨request, initSeatBid, errs⟩ (httpRun reqData) with
    | none => none
    | some st => some (some st.seatBid, st.errs, st.Request)

/-! ## `doRequest` and `doTimeoutNotification` -/

/-- Transport outcome of one outbound HTTP call, abstracting
`http.NewRequest`, `ctxhttp.Do` and the body read. -/
inductive HttpOutcome where
  | newRequestErr (msg : String)
  | transportErr (msg : String) (deadlineExceeded : Bool)
  | readErr (msg : String)
  | reply (statusCode : Int) (body : String) (headers : Headers)
deriving DecidableEq, Repr

/-- `bidderAdapter.doRequest` (lines 305-358): classify the transport
outcome into a `httpCallInfo`. -/
def doRequest (outcome : RequestData → HttpOutcome) (req : RequestData) : httpCallInfo :=
  match outcome req with
  | HttpOutcome.newRequestErr m =>
    { request := some req, response := none, err := some (PbsError.generic m) }
  | HttpOutcome.transportErr m dl =>
    { request := some req, response := none
      err := some (if dl then PbsError.timeout m else PbsError.generic m) }
  | HttpOutcome.readErr m =>
    { request := some req, response := none, err := some (PbsError.generic m) }
  | HttpOutcome.reply s b h =>
    { request := some req
      response := some { StatusCode := s, Body := b, Headers := h }
      err :=
        if s < 200 ∨ 400 ≤ s then
          some (PbsError.badServerResponse ("Server responded with failure status: " ++ toString s ++ ". Set request.test = 1 for debugging info."))
        else none }

/-- The HTTP request a notification actually sends on the wire. -/
structure HttpRequestModel where
  Method : String
  Uri : String
  Body : String
  Header : Headers
deriving DecidableEq, Repr

/-- `bidderAdapter.doTimeoutNotification` (lines 360-373), returning the
notification request issued (or `none` when nothing is sent).
`makeTimeoutNotification` is the plugin's `MakeTimeoutNotification`;
`newRequestOk` tells whether `http.NewRequest` accepts the method/URI.
Note line 367: the headers are copied from the *original* timed-out
request, not from the notification request. -/
def doTimeoutNotification
    (makeTimeoutNotification : RequestData → Option RequestData × List PbsError)
    (newRequestOk : String → String → Bool)
    (req : RequestData) : Option HttpRequestModel :=
  let r := makeTimeoutNotification req
  match r.1 with
  | some toReq =>
    if r.2 = [] then
      if newRequestOk toReq.Method toReq.Uri then
        some { Method := toReq.Method, Uri := toReq.Uri, Body := toReq.Body, Header := req.Headers }
      else none
    else none
  | none => none

/-! ## Concrete instances used by witnesses and counterexamples -/

/-- Forget the markup of a typed bid (everything enrichment may change). -/
def eraseAdM (tb : TypedBid) : TypedBid :=
  {tb with Bid := tb.Bid.map (fun b => {b with AdM := AdmVal.invalid ""})}

/-- A plugin that produces neither requests nor errors. -/
def bidderC1 : Bidder :=
  { MakeRequests := fun _ => ([], []), MakeBids := fun _ _ _ => (none, []) }

def reqC1 : BidRequest := { Test := 0, App := none, Cur := ["USD"], Imp := [] }

def convC1 : Conversions := { GetRate := fun _ _ => Except.error (PbsError.generic "no rate") }

def runC1 : List RequestData → List httpCallInfo := fun _ => []

def rdC2a : RequestData := { Method := "POST", Uri := "a", Body := "", Headers := [] }

def rdC2b : RequestData := { Method := "POST", Uri := "b", Body := "", Headers := [] }

def rsC2 : ResponseData := { StatusCode := 200, Body := "ok", Headers := [] }

/-- A bid with the given reported price. -/
def bidC2 (p : ℚ) : Bid :=
  { ID := "1", ImpID := "imp", Price := p, AdM := AdmVal.invalid "", Ext := "" }

def tbC2 (p : ℚ) : TypedBid :=
  { Bid := some (bidC2 p), BidType := BidType.banner, BidVideo := none, DealPriority := 0 }

/-- Two outbound requests; the replies report currencies USD and ABC. -/
def bidderC2 : Bidder :=
  { MakeRequests := fun _ => ([rdC2a, rdC2b], [])
    MakeBids := fun _ r _ =>
      if r = some rdC2a then (some { Currency := "USD", Bids := [tbC2 1] }, [])
      else (some { Currency := "ABC", Bids := [tbC2 1] }, []) }

/-- USD→EUR = 2, ABC→GBP = 3, USD→GBP = 5, everything else errors. -/
def convC2 : Conversions :=
  { GetRate := fun f t =>
      if f = "USD" ∧ t = "EUR" then Except.ok 2
      else if f = "ABC" ∧ t = "GBP" then Except.ok 3
      else if f = "USD" ∧ t = "GBP" then Except.ok 5
      else Except.error (PbsError.generic "rate not found") }

def reqC2 : BidRequest := { Test := 0, App := none, Cur := ["EUR", "GBP"], Imp := [] }

/-- Every outbound call replies 200 with body `ok`. -/
def runC2 : List RequestData → List httpCallInfo :=
  fun rds => rds.map (fun rd => { request := some rd, response := some rsC2, err := none })

def reqW2 : BidRequest := { Test := 0, App := none, Cur := ["EUR"], Imp := [] }

def infoW2 : httpCallInfo := { request := some rdC2a, response := some rsC2, err := none }

def stW2 : CollectState := { Request := reqW2, seatBid := initSeatBid, errs := [] }

/-- GetRate = USD→EUR = 2, everything else errors naming the target. -/
def convC3 : Conversions :=
  { GetRate := fun f t =>
      if f = "USD" ∧ t = "EUR" then Except.ok 2
      else Except.error (PbsError.generic ("no rate to " ++ t)) }

def rdC3 : RequestData := { Method := "POST", Uri := "c", Body := "", Headers := [] }

def bidderC3 : Bidder :=
  { MakeRequests := fun _ => ([rdC3], [])
    MakeBids := fun _ _ _ => (some { Currency := "USD", Bids := [] }, []) }

def bidderC3b : Bidder :=
  { MakeRequests := fun _ => ([rdC3], [])
    MakeBids := fun _ _ _ => (some { Currency := "ABC", Bids := [] }, []) }

def reqC3 : BidRequest := { Test := 0, App := none, Cur := ["EUR"], Imp := [] }

def reqC3b : BidRequest := { Test := 0, App := none, Cur := ["EUR", "GBP"], Imp := [] }

def stC3 : CollectState := { Request := reqC3, seatBid := initSeatBid, errs := [] }

def stC3b : CollectState := { Request := reqC3b, seatBid := initSeatBid, errs := [] }

def infoC3 : httpCallInfo := { request := some rdC3, response := some rsC2, err := none }

def rdC4 : RequestData := { Method := "GET", Uri := "u", Body := "", Headers := [] }

def bidderC4 : Bidder :=
  { MakeRequests := fun _ => ([rdC4], []), MakeBids := fun _ _ _ => (none, []) }

/-- Every outbound call times out. -/
def runC4 : List RequestData → List httpCallInfo :=
  fun rds => rds.map (fun rd => { request := some rd, response := none, err := some (PbsError.timeout "t") })

def reqC4 : BidRequest := { Test := 1, App := none, Cur := ["USD"], Imp := [] }

/-- The seat bid `requestBid` produces for the C4 witness run. -/
def sbC4 : pbsOrtbSeatBid :=
  { bids := [], currency := "USD"
    httpCalls := [{ Uri := "u", RequestBody := "", ResponseBody := "", Status := 0 }]
    ext := "" }

def rdC5 : RequestData := { Method := "POST", Uri := "srv", Body := "breq", Headers := [("a", "b")] }

/-- The server replies 503 to everything. -/
def outcomeC5 : RequestData → HttpOutcome := fun _ => HttpOutcome.reply 503 "oops" [("h", "v")]

def reqC5 : BidRequest := { Test := 0, App := none, Cur := ["USD"], Imp := [] }

def stC5 : CollectState := { Request := reqC5, seatBid := initSeatBid, errs := [] }

def bidJnullC6 : Bid :=
  { ID := "bid1", ImpID := "imp1", Price := 1, AdM := AdmVal.jnull, Ext := "" }

def reqC6 : BidRequest := { Test := 0, App := some (), Cur := ["USD"], Imp := [] }

def raC7 : RespAsset := { ID := 1, Img := some { Typ := 7, url := "u" }, Data := none }

def mC7 : NativeResp := { Assets := [raC7], link := "lnk" }

def qaC7 : ReqAsset := { ID := 1, Img := some { Typ := 0 }, Data := none }

def payC7 : NativeReq := { Assets := [qaC7] }

def nimpC7 : NativeObj := { Request := NativeReqVal.wellFormed payC7 }

def impC7 : Impression := { ID := "imp1", Native := some nimpC7 }

def reqC7 : BidRequest := { Test := 0, App := some (), Cur := ["USD"], Imp := [impC7] }

def bidC7 : Bid := { ID := "b1", ImpID := "imp1", Price := 1, AdM := AdmVal.jresp mC7, Ext := "" }

def rdC8 : RequestData := { Method := "POST", Uri := "w", Body := "", Headers := [] }

def bidderC8 : Bidder :=
  { MakeRequests := fun _ => ([rdC8], [])
    MakeBids := fun _ _ _ => (some { Currency := "", Bids := [] }, []) }

def convC8 : Conversions := { GetRate := fun _ _ => Except.ok 1 }

def runC8 : List RequestData → List httpCallInfo :=
  fun rds => rds.map (fun rd => { request := some rd, response := some rsC2, err := none })

/-- A request with an empty `Cur` list. -/
def reqC8 : BidRequest := { Test := 0, App := none, Cur := [], Imp := [] }

/-- The final state of the borrowed request in the C8 witness run. -/
def reqC8' : BidRequest := { Test := 0, App := none, Cur := ["USD"], Imp := [] }

def rdC9 : RequestData := { Method := "POST", Uri := "n", Body := "", Headers := [] }

/-- A native-typed entry with a nil bid pointer. -/
def tbNilC9 : TypedBid :=
  { Bid := none, BidType := BidType.native, BidVideo := none, DealPriority := 7 }

def bidderC9 : Bidder :=
  { MakeRequests := fun _ => ([rdC9], [])
    MakeBids := fun _ _ _ => (some { Currency := "USD", Bids := [tbNilC9] }, []) }

/-- A mobile-app request. -/
def reqC9 : BidRequest := { Test := 0, App := some (), Cur := ["USD"], Imp := [] }

def convC9 : Conversions := { GetRate := fun _ _ => Except.ok 1 }

def runC9 : List RequestData → List httpCallInfo :=
  fun rds => rds.map (fun rd => { request := some rd, response := some rsC2, err := none })

/-- A banner-typed entry with a nil bid pointer (for the amended C9). -/
def tbNilW9 : TypedBid :=
  { Bid := none, BidType := BidType.banner, BidVideo := none, DealPriority := 3 }

def bidderW9 : Bidder :=
  { MakeRequests := fun _ => ([rdC9], [])
    MakeBids := fun _ _ _ => (some { Currency := "USD", Bids := [tbNilW9] }, []) }

def stW9 : CollectState := { Request := reqC9, seatBid := initSeatBid, errs := [] }

def infoW9 : httpCallInfo := { request := some rdC9, response := some rsC2, err := none }

def toReqC10 : RequestData :=
  { Method := "GET", Uri := "notify", Body := "nb", Headers := [("x", "y")] }

def reqC10 : RequestData :=
  { Method := "POST", Uri := "orig", Body := "body0", Headers := [("k", "v")] }

def mtnC10 : RequestData → Option RequestData × List PbsError := fun _ => (some toReqC10, [])

def newOkC10 : String → String → Bool := fun _ _ => true

/-- The notification actually sent in the C10 witness run: method, URI and
body from the notification request, headers from the original request. -/
def outC10 : HttpRequestModel :=
  { Method := "GET", Uri := "notify", Body := "nb", Header := [("k", "v")] }

/-! ## Basic lemmas about the collector -/

@[simp] theorem traceStep_Request (st : CollectState) (info : httpCallInfo) :
    (traceStep st info).Request = st.Request := by
  unfold traceStep; split <;> rfl

@[simp] theorem traceStep_errs (st : CollectState) (info : httpCallInfo) :
    (traceStep st info).errs = st.errs := by
  unfold traceStep; split <;> rfl

@[simp] theorem traceStep_bids (st : CollectState) (info : httpCallInfo) :
    (traceStep st info).seatBid.bids = st.seatBid.bids := by
  unfold traceStep; split <;> rfl

@[simp] theorem traceStep_currency (st : CollectState) (info : httpCallInfo) :
    (traceStep st info).seatBid.currency = st.seatBid.currency := by
  unfold traceStep; split <;> rfl

@[simp] theorem traceStep_ext (st : CollectState) (info : httpCallInfo) :
    (traceStep st info).seatBid.ext = st.seatBid.ext := by
  unfold traceStep; split <;> rfl

theorem traceStep_httpCalls (st : CollectState) (info : httpCallInfo) :
    (traceStep st info).seatBid.httpCalls =
      st.seatBid.httpCalls ++ (if st.Request.Test = 1 then [makeExt info] else []) := by
  unfold traceStep; split <;> simp

@[simp] theorem normalizeRespCurrency_Bids (br : BidderResponse) :
    (normalizeRespCurrency br).Bids = br.Bids := by
  unfold normalizeRespCurrency; split <;> rfl

@[simp] theorem normalizeReqCur_Test (r : BidRequest) :
    (normalizeReqCur r).Test = r.Test := by
  unfold normalizeReqCur; split <;> rfl

@[simp] theorem normalizeReqCur_App (r : BidRequest) :
    (normalizeReqCur r).App = r.App := by
  unfold normalizeReqCur; split <;> rfl

@[simp] theorem normalizeReqCur_Imp (r : BidRequest) :
    (normalizeReqCur r).Imp = r.Imp := by
  unfold normalizeReqCur; split <;> rfl

theorem normalizeReqCur_Cur (r : BidRequest) :
    (normalizeReqCur r).Cur = r.Cur ∨ (r.Cur = [] ∧ (normalizeReqCur r).Cur = ["USD"]) := by
  unfold normalizeReqCur; split
  · next h => exact Or.inr ⟨h, rfl⟩
  · exact Or.inl rfl

/-- Error branch of the loop body (line 199-201): the error is appended and
nothing else changes besides the debug trace. -/
theorem collectResult_err (bidder : Bidder) (adj : ℚ) (conv : Conversions)
    (st : CollectState) (info : httpCallInfo) (e : PbsError) (h : info.err = some e) :
    collectResult bidder adj conv st info =
      some ⟨st.Request, (traceStep st info).seatBid, st.errs ++ [e]⟩ := by
  simp only [collectResult, h]
  simp

/-- Successful-rate branch: full characterization of the new state. -/
theorem collectResult_ok (bidder : Bidder) (adj : ℚ) (conv : Conversions)
    (st : CollectState) (info : httpCallInfo) (br0 : BidderResponse)
    (moreErrs : List PbsError) (c : String) (rate : ℚ)
    (bids' : List TypedBid) (nerrs : List PbsError)
    (herr : info.err = none)
    (hmb : bidder.MakeBids st.Request info.request info.response = (some br0, moreErrs))
    (hfr : findRate conv (normalizeRespCurrency br0).Currency (normalizeReqCur st.Request).Cur
            = RateResult.ok c rate)
    (hen : enrichStep (normalizeReqCur st.Request) br0.Bids = some (bids', nerrs)) :
    collectResult bidder adj conv st info =
      some ⟨normalizeReqCur st.Request,
            { bids := st.seatBid.bids ++ bids'.map (mkPbsOrtbBid adj rate)
              currency := c
              httpCalls := (traceStep st info).seatBid.httpCalls
              ext := st.seatBid.ext }
            , st.errs ++ moreErrs ++ nerrs⟩ := by
  simp only [collectResult, herr, traceStep_Request, hmb, processBidResponse,
    normalizeRespCurrency_Bids]
  simp only [traceStep_errs, traceStep_bids, traceStep_currency, traceStep_ext]
  simp [hfr, hen, List.append_assoc]

/-- All-rates-fail branch: only the last conversion error is appended and
the batch of bids is discarded. -/
theorem collectResult_fail (bidder : Bidder) (adj : ℚ) (conv : Conversions)
    (st : CollectState) (info : httpCallInfo) (br0 : BidderResponse)
    (moreErrs : List PbsError) (e : PbsError)
    (bids' : List TypedBid) (nerrs : List PbsError)
    (herr : info.err = none)
    (hmb : bidder.MakeBids st.Request info.request info.response = (some br0, moreErrs))
    (hfr : findRate conv (normalizeRespCurrency br0).Currency (normalizeReqCur st.Request).Cur
            = RateResult.fail e)
    (hen : enrichStep (normalizeReqCur st.Request) br0.Bids = some (bids', nerrs)) :
    collectResult bidder adj conv st info =
      some ⟨normalizeReqCur st.Request, (traceStep st info).seatBid,
            st.errs ++ moreErrs ++ nerrs ++ [e]⟩ := by
  simp only [collectResult, herr, traceStep_Request, hmb, processBidResponse,
    normalizeRespCurrency_Bids]
  simp only [traceStep_errs, traceStep_bids, traceStep_currency, traceStep_ext]
  simp [hfr, hen, List.append_assoc]

/-- `processBidResponse` only ever touches `Request.Cur` (through
`normalizeReqCur`), `seatBid.bids`, `seatBid.currency` and `errs`. -/
theorem processBidResponse_frame (adj : ℚ) (conv : Conversions)
    (s : CollectState) (br : BidderResponse) (st' : CollectState)
    (h : processBidResponse adj conv s br = some st') :
    st'.Request = normalizeReqCur s.Request ∧
    st'.seatBid.httpCalls = s.seatBid.httpCalls ∧
    st'.seatBid.ext = s.seatBid.ext := by
  unfold processBidResponse at h
  dsimp only at h
  split at h <;> split at h <;>
    first
      | (cases h; exact ⟨rfl, rfl, rfl⟩)
      | simp_all

/-- One pass of the loop body preserves `Test`, `App` and `Imp`, mutates
`Cur` only from empty to `["USD"]`, and appends exactly one debug trace
when `Test == 1` and none otherwise. -/
theorem collectResult_frame (bidder : Bidder) (adj : ℚ) (conv : Conversions)
    (st : CollectState) (info : httpCallInfo) (st' : CollectState)
    (h : collectResult bidder adj conv st info = some st') :
    st'.Request.Test = st.Request.Test ∧
    st'.Request.App = st.Request.App ∧
    st'.Request.Imp = st.Request.Imp ∧
    (st'.Request.Cur = st.Request.Cur ∨ (st.Request.Cur = [] ∧ st'.Request.Cur = ["USD"])) ∧
    st'.seatBid.httpCalls = st.seatBid.httpCalls ++ (if st.Request.Test = 1 then [makeExt info] else []) := by
  rcases hinfo : info.err with _ | e
  · simp only [collectResult, hinfo, traceStep_Request] at h
    rcases hmk : bidder.MakeBids st.Request info.request info.response with ⟨brOpt, moreErrs⟩
    rw [hmk] at h
    cases brOpt with
    | none =>
      injection h with h'
      subst h'
      refine ⟨by simp, by simp, by simp, Or.inl (by simp), ?_⟩
      simp [traceStep_httpCalls]
    | some br0 =>
      simp only at h
      have hf := processBidResponse_frame adj conv _ br0 st' h
      rcases hf with ⟨h1, h2, h3⟩
      simp only at h1 h2
      refine ⟨?_, ?_, ?_, ?_, ?_⟩
      · rw [h1]; simp
      · rw [h1]; simp
      · rw [h1]; simp
      · rw [h1]
        simpa using normalizeReqCur_Cur st.Request
      · rw [h2, traceStep_httpCalls]
  · rw [collectResult_err bidder adj conv st info e hinfo] at h
    injection h with h'
    subst h'
    exact ⟨rfl, rfl, rfl, Or.inl rfl, traceStep_httpCalls st info⟩

/-- The whole collection loop: request-frame invariants and the debug
trace count (one trace per drained result iff `Test == 1`). -/
theorem foldResults_frame (bidder : Bidder) (adj : ℚ) (conv : Conversions) :
    ∀ (infos : List httpCallInfo) (st st' : CollectState),
      foldResults bidder adj conv st infos = some st' →
      st'.Request.Test = st.Request.Test ∧
      st'.Request.App = st.Request.App ∧
      st'.Request.Imp = st.Request.Imp ∧
      (st'.Request.Cur = st.Request.Cur ∨ (st.Request.Cur = [] ∧ st'.Request.Cur = ["USD"])) ∧
      st'.seatBid.httpCalls.length =
        st.seatBid.httpCalls.length + (if st.Request.Test = 1 then infos.length else 0)
  | [], st, st', h => by
    injection h with h'
    subst h'
    exact ⟨rfl, rfl, rfl, Or.inl rfl, by split <;> simp⟩
  | info :: rest, st, st', h => by
    rcases hstep : collectResult bidder adj conv st info with _ | stm
    · rw [foldResults, hstep] at h; exact absurd h (by simp)
    · rw [foldResults, hstep] at h
      have ih := foldResults_frame bidder adj conv rest stm st' h
      have hc := collectResult_frame bidder adj conv st info stm hstep
      rcases ih with ⟨i1, i2, i3, i4, i5⟩
      rcases hc with ⟨c1, c2, c3, c4, c5⟩
      refine ⟨i1.trans c1, i2.trans c2, i3.trans c3, ?_, ?_⟩
      · rcases i4 with i4 | ⟨i4a, i4b⟩
        · rw [i4]; exact c4
        · rcases c4 with c4 | ⟨c4a, c4b⟩
          · rw [c4] at i4a; exact Or.inr ⟨i4a, i4b⟩
          · rw [c4b] at i4a; cases i4a
      · rw [i5, c5, c1]
        by_cases hT : st.Request.Test = 1
        · simp [hT]
          omega
        · simp [hT]

/-! ## The currency loop -/

theorem findRate_empty_iff (conv : Conversions) (f : String) (cs : List String) :
    findRate conv f cs = RateResult.empty ↔ cs = [] := by
  cases cs with
  | nil => simp [findRate]
  | cons c rest =>
    simp only [findRate]
    cases h : conv.GetRate f c with
    | ok r => simp
    | error e => cases h2 : findRate conv f rest <;> simp

/-- The loop stops at the first acceptable currency with a rate. -/
theorem findRate_first_ok (conv : Conversions) (f : String) :
    ∀ (pre : List String) (c : String) (post : List String) (r : ℚ),
      (∀ c' ∈ pre, ∃ e, conv.GetRate f c' = Except.error e) →
      conv.GetRate f c = Except.ok r →
      findRate conv f (pre ++ c :: post) = RateResult.ok c r
  | [], c, post, r, _, hok => by simp [findRate, hok]
  | p :: pre', c, post, r, hpre, hok => by
    obtain ⟨e, he⟩ := hpre p (List.mem_cons_self p pre')
    have ih := findRate_first_ok conv f pre' c post r
      (fun c' hc' => hpre c' (List.mem_cons_of_mem p hc')) hok
    simp [findRate, he, ih]

/-- When the loop fails, every acceptable currency had no rate and the
reported error is the one of the *last* element. -/
theorem findRate_fail_spec (conv : Conversions) (f : String) :
    ∀ (cs : List String) (e : PbsError), findRate conv f cs = RateResult.fail e →
      (∀ c ∈ cs, ∃ e', conv.GetRate f c = Except.error e') ∧
      (∀ cl, cs.getLast? = some cl → conv.GetRate f cl = Except.error e)
  | [], e, h => by simp [findRate] at h
  | c :: rest, e, h => by
    simp only [findRate] at h
    cases hg : conv.GetRate f c with
    | ok r => rw [hg] at h; exact absurd h (by simp)
    | error e1 =>
      rw [hg] at h
      cases hr : findRate conv f rest with
      | empty =>
        rw [hr] at h
        have hrest : rest = [] := (findRate_empty_iff conv f rest).mp hr
        subst hrest
        have he1 : e1 = e := by
          injection h
        subst he1
        refine ⟨?_, ?_⟩
        · intro c' hc'
          rcases List.mem_singleton.mp hc' with rfl
          exact ⟨e1, hg⟩
        · intro cl hcl
          simp only [List.getLast?_singleton, Option.some.injEq] at hcl
          subst hcl
          exact hg
      | fail e2 =>
        rw [hr] at h
        have he2 : e2 = e := by injection h
        subst he2
        have ih := findRate_fail_spec conv f rest e2 hr
        have hne : rest ≠ [] := by
          intro hnil
          rw [hnil] at hr
          simp [findRate] at hr
        refine ⟨?_, ?_⟩
        · intro c' hc'
          rcases List.mem_cons.mp hc' with rfl | hc'
          · exact ⟨e1, hg⟩
          · exact ih.1 c' hc'
        · intro cl hcl
          apply ih.2 cl
          rcases rest with _ | ⟨r1, rs⟩
          · exact absurd rfl hne
          · rwa [List.getLast?_cons_cons] at hcl
      | ok c2 r2 =>
        rw [hr] at h
        exact absurd h (by simp)

/-! ## The native-enrichment pass -/

theorem eraseAdM_setAdM (tb : TypedBid) (m : NativeResp) :
    eraseAdM {tb with Bid := tb.Bid.map (fun b => {b with AdM := AdmVal.jresp m})} = eraseAdM tb := by
  cases h : tb.Bid <;> simp [eraseAdM, h]

/-- Enrichment only rewrites `Bid.AdM`: prices, types, video metadata and
deal priorities are untouched, as is the list length and order. -/
theorem enrichNativeBids_eraseAdM (req : BidRequest) :
    ∀ (bids bids' : List TypedBid) (es : List PbsError),
      enrichNativeBids req bids = some (bids', es) →
      bids'.map eraseAdM = bids.map eraseAdM
  | [], bids', es, h => by
    simp only [enrichNativeBids] at h
    injection h with h'
    injection h' with h1 h2
    subst h1
    rfl
  | tb :: rest, bids', es, h => by
    simp only [enrichNativeBids] at h
    by_cases ht : tb.BidType = BidType.native
    · rw [if_pos ht] at h
      cases ha : addNativeTypes tb.Bid req with
      | none => rw [ha] at h; exact Option.noConfusion h
      | some pr =>
        rw [ha] at h
        cases hr : enrichNativeBids req rest with
        | none => rw [hr] at h; exact Option.noConfusion h
        | some pr2 =>
          rw [hr] at h
          injection h with h'
          injection h' with h1 h2
          subst h1
          have ih := enrichNativeBids_eraseAdM req rest pr2.1 pr2.2 (by rw [hr])
          have heq : eraseAdM (match pr.1 with
              | some m => {tb with Bid := tb.Bid.map (fun b => {b with AdM := AdmVal.jresp m})}
              | none => tb) = eraseAdM tb := by
            cases pr.1 with
            | none => rfl
            | some m => exact eraseAdM_setAdM tb m
          simp only [List.map_cons, ih, heq]
    · rw [if_neg ht] at h
      cases hr : enrichNativeBids req rest with
      | none => rw [hr] at h; exact Option.noConfusion h
      | some pr2 =>
        rw [hr] at h
        injection h with h'
        injection h' with h1 h2
        subst h1
        have ih := enrichNativeBids_eraseAdM req rest pr2.1 pr2.2 (by rw [hr])
        simp [ih]

/-- An entry whose bid pointer is nil survives a *successful* enrichment
pass unchanged (a native-typed nil bid would have made the pass panic). -/
theorem enrichNativeBids_nilBid_mem (req : BidRequest) :
    ∀ (bids bids' : List TypedBid) (es : List PbsError) (tb : TypedBid),
      enrichNativeBids req bids = some (bids', es) →
      tb ∈ bids → tb.Bid = none → tb ∈ bids'
  | [], bids', es, tb, h, hmem, _ => by cases hmem
  | tb0 :: rest, bids', es, tb, h, hmem, hnil => by
    simp only [enrichNativeBids] at h
    by_cases ht : tb0.BidType = BidType.native
    · rw [if_pos ht] at h
      cases ha : addNativeTypes tb0.Bid req with
      | none => rw [ha] at h; exact Option.noConfusion h
      | some pr =>
        rw [ha] at h
        cases hr : enrichNativeBids req rest with
        | none => rw [hr] at h; exact Option.noConfusion h
        | some pr2 =>
          rw [hr] at h
          injection h with h'
          injection h' with h1 h2
          subst h1
          rcases List.mem_cons.mp hmem with rfl | hmem'
          · -- a native entry with a nil bid makes addNativeTypes panic
            rw [hnil] at ha
            exact absurd ha (by simp [addNativeTypes])
          · exact List.mem_cons_of_mem _
              (enrichNativeBids_nilBid_mem req rest pr2.1 pr2.2 tb (by rw [hr]) hmem' hnil)
    · rw [if_neg ht] at h
      cases hr : enrichNativeBids req rest with
      | none => rw [hr] at h; exact Option.noConfusion h
      | some pr2 =>
        rw [hr] at h
        injection h with h'
        injection h' with h1 h2
        subst h1
        rcases List.mem_cons.mp hmem with rfl | hmem'
        · exact List.mem_cons_self _ _
        · exact List.mem_cons_of_mem _
            (enrichNativeBids_nilBid_mem req rest pr2.1 pr2.2 tb (by rw [hr]) hmem' hnil)

theorem enrichStep_eraseAdM (req : BidRequest) (bids bids' : List TypedBid)
    (es : List PbsError) (h : enrichStep req bids = some (bids', es)) :
    bids'.map eraseAdM = bids.map eraseAdM := by
  unfold enrichStep at h
  split at h
  · exact enrichNativeBids_eraseAdM req bids bids' es h
  · injection h with h'
    injection h' with h1 h2
    subst h1
    rfl

theorem enrichStep_nilBid_mem (req : BidRequest) (bids bids' : List TypedBid)
    (es : List PbsError) (tb : TypedBid) (h : enrichStep req bids = some (bids', es))
    (hmem : tb ∈ bids) (hnil : tb.Bid = none) : tb ∈ bids' := by
  unfold enrichStep at h
  split at h
  · exact enrichNativeBids_nilBid_mem req bids bids' es tb h hmem hnil
  · injection h with h'
    injection h' with h1 h2
    subst h1
    exact hmem

/-! ## Helpers for asset-type enrichment and requestBid inversion -/

theorem getAssetByID_mem : ∀ (assets : List ReqAsset) (id : Int) (a : ReqAsset),
    getAssetByID id assets = Except.ok a → a ∈ assets
  | [], id, a, h => by simp [getAssetByID] at h
  | x :: rest, id, a, h => by
    simp only [getAssetByID] at h
    split at h
    · injection h with h'
      subst h'
      exact List.mem_cons_self _ _
    · exact List.mem_cons_of_mem _ (getAssetByID_mem rest id a h)

/-- When the matched request asset exists, matches in kind, and all request
asset types are zero, `setAssetTypes` is the identity and reports no
error. -/
theorem setAssetTypes_zero_matched (a : RespAsset) (pay : NativeReq)
    (hz : ∀ ra ∈ pay.Assets, (∀ i, ra.Img = some i → i.Typ = 0) ∧ (∀ d, ra.Data = some d → d.Typ = 0))
    (ra : ReqAsset) (hget : getAssetByID a.ID pay.Assets = Except.ok ra)
    (hImg : a.Img.isSome → ra.Img.isSome)
    (hData : a.Data.isSome → ra.Data.isSome) :
    setAssetTypes a pay = (a, none) := by
  have hmem := getAssetByID_mem pay.Assets a.ID ra hget
  have himg : setImgType a pay.Assets = (a, none) := by
    unfold setImgType
    cases hai : a.Img with
    | none => rfl
    | some img =>
      rw [hget]
      cases hri : ra.Img with
      | none =>
        have hco : ra.Img.isSome := hImg (by simp [hai])
        rw [hri] at hco
        simp at hco
      | some timg =>
        have ht0 : timg.Typ = 0 := (hz ra hmem).1 timg hri
        simp [hri, ht0]
  have hdat : setDataType a pay.Assets = (a, none) := by
    unfold setDataType
    cases had : a.Data with
    | none => rfl
    | some dat =>
      rw [hget]
      cases hrd : ra.Data with
      | none =>
        have hco : ra.Data.isSome := hData (by simp [had])
        rw [hrd] at hco
        simp at hco
      | some tdat =>
        have ht0 : tdat.Typ = 0 := (hz ra hmem).2 tdat hrd
        simp [hrd, ht0]
  unfold setAssetTypes
  rw [himg]
  exact hdat

theorem setAssetTypes_results (pay : NativeReq) :
    ∀ (l : List RespAsset), (∀ a ∈ l, setAssetTypes a pay = (a, none)) →
      (l.map (fun a => setAssetTypes a pay)).map Prod.fst = l ∧
      (l.map (fun a => setAssetTypes a pay)).filterMap Prod.snd = []
  | [], _ => ⟨rfl, rfl⟩
  | x :: rest, hall => by
    have hx := hall x (List.mem_cons_self _ _)
    have ih := setAssetTypes_results pay rest (fun a ha => hall a (List.mem_cons_of_mem _ ha))
    constructor
    · simp [hx, ih.1]
    · simp [hx, ih.2, List.filterMap_cons]

/-- Inversion: a returned (non-nil) seat bid comes from a successful run of
the collection loop over a non-empty outbound list. -/
theorem requestBid_some_seatbid (bidder : Bidder) (httpRun : List RequestData → List httpCallInfo)
    (request : BidRequest) (adj : ℚ) (conv : Conversions)
    (sb : pbsOrtbSeatBid) (errs : List PbsError) (req' : BidRequest)
    (h : requestBid bidder httpRun request adj conv = some (some sb, errs, req')) :
    ∃ st, foldResults bidder adj conv ⟨request, initSeatBid, (bidder.MakeRequests request).2⟩
            (httpRun (bidder.MakeRequests request).1) = some st ∧
      sb = st.seatBid ∧ errs = st.errs ∧ req' = st.Request := by
  by_cases hrd : (bidder.MakeRequests request).1 = []
  · simp only [requestBid] at h
    rw [if_pos hrd] at h
    split at h <;> simp at h
  · simp only [requestBid] at h
    rw [if_neg hrd] at h
    cases hf : foldResults bidder adj conv ⟨request, initSeatBid, (bidder.MakeRequests request).2⟩
        (httpRun (bidder.MakeRequests request).1) with
    | none => rw [hf] at h; exact Option.noConfusion h
    | some st =>
      rw [hf] at h
      injection h with h'
      injection h' with h1 h2
      injection h2 with h2a h2b
      injection h1 with h1'
      exact ⟨st, rfl, h1'.symm, h2a.symm, h2b.symm⟩

/-! ## Claim theorems -/

/-- C1 (amended): if `MakeRequests` returns no outbound requests,
`requestBid` returns a nil seat bid with the plugin's errors, synthesizing
exactly one `FailedToRequestBids` error — whose message is "The adapter
failed to generate any bid requests, but also failed to generate an error
explaining why" — when the plugin's error list is empty; and a nil seat
bid is returned only in that case. -/
theorem requestBid_no_outbound_requests (bidder : Bidder)
    (httpRun : List RequestData → List httpCallInfo) (request : BidRequest)
    (adj : ℚ) (conv : Conversions) :
    ((bidder.MakeRequests request).1 = [] →
      requestBid bidder httpRun request adj conv =
        some (none,
          if (bidder.MakeRequests request).2 = []
          then [PbsError.failedToRequestBids "The adapter failed to generate any bid requests, but also failed to generate an error explaining why"]
          else (bidder.MakeRequests request).2,
          request)) ∧
    (∀ sbOpt errs req', requestBid bidder httpRun request adj conv = some (sbOpt, errs, req') →
      sbOpt = none → (bidder.MakeRequests request).1 = []) := by
  constructor
  · intro hrd
    simp only [requestBid]
    rw [if_pos hrd]
    by_cases hc : (bidder.MakeRequests request).2 = [] <;> simp [hc]
  · intro sbOpt errs req' h hnone
    by_cases hrd : (bidder.MakeRequests request).1 = []
    · exact hrd
    · subst hnone
      simp only [requestBid] at h
      rw [if_neg hrd] at h
      cases hf : foldResults bidder adj conv ⟨request, initSeatBid, (bidder.MakeRequests request).2⟩
          (httpRun (bidder.MakeRequests request).1) with
      | none => rw [hf] at h; exact Option.noConfusion h
      | some st =>
        rw [hf] at h
        injection h with h'
        injection h' with h1 h2
        exact Option.noConfusion h1

/-- Witness for C1: a plugin returning `([], [])` makes `requestBid` return
the nil seat bid with the single synthesized error, and conversely the nil
seat bid implies the empty outbound list. -/
theorem requestBid_no_outbound_requests_witness :
    requestBid bidderC1 runC1 reqC1 1 convC1 =
      some (none, [PbsError.failedToRequestBids "The adapter failed to generate any bid requests, but also failed to generate an error explaining why"], reqC1) ∧
    (bidderC1.MakeRequests reqC1).1 = [] := by
  constructor
  · exact (requestBid_no_outbound_requests bidderC1 runC1 reqC1 1 convC1).1 rfl
  · exact (requestBid_no_outbound_requests bidderC1 runC1 reqC1 1 convC1).2 none
      [PbsError.failedToRequestBids "The adapter failed to generate any bid requests, but also failed to generate an error explaining why"]
      reqC1 ((requestBid_no_outbound_requests bidderC1 runC1 reqC1 1 convC1).1 rfl) rfl

/-- Counterexample to C1 as stated: the synthesized message starts with
"The adapter …", not "adapter …" as the claim quotes it. -/
theorem requestBid_synthesized_message_counterexample :
    requestBid bidderC1 runC1 reqC1 1 convC1 =
      some (none, [PbsError.failedToRequestBids "The adapter failed to generate any bid requests, but also failed to generate an error explaining why"], reqC1) ∧
    "The adapter failed to generate any bid requests, but also failed to generate an error explaining why" ≠
      "adapter failed to generate any bid requests, but also failed to generate an error explaining why" := by
  exact ⟨rfl, by decide⟩

/-- C5: a reply with status < 200 or ≥ 400 yields a `httpCallInfo` carrying
both the full response and a `BadServerResponse` error with the exact
message, and the collection loop then takes the error branch: the error is
appended and no bids are produced from that call. -/
theorem doRequest_bad_status (outcome : RequestData → HttpOutcome) (req : RequestData)
    (s : Int) (b : String) (hd : Headers)
    (bidder : Bidder) (adj : ℚ) (conv : Conversions) (st : CollectState)
    (hreply : outcome req = HttpOutcome.reply s b hd)
    (hbad : s < 200 ∨ 400 ≤ s) :
    doRequest outcome req =
      { request := some req
        response := some { StatusCode := s, Body := b, Headers := hd }
        err := some (PbsError.badServerResponse
          ("Server responded with failure status: " ++ toString s ++ ". Set request.test = 1 for debugging info.")) } ∧
    collectResult bidder adj conv st (doRequest outcome req) =
      some ⟨st.Request, (traceStep st (doRequest outcome req)).seatBid,
            st.errs ++ [PbsError.badServerResponse
              ("Server responded with failure status: " ++ toString s ++ ". Set request.test = 1 for debugging info.")]⟩ ∧
    (traceStep st (doRequest outcome req)).seatBid.bids = st.seatBid.bids := by
  have h1 : doRequest outcome req =
      { request := some req
        response := some { StatusCode := s, Body := b, Headers := hd }
        err := some (PbsError.badServerResponse
          ("Server responded with failure status: " ++ toString s ++ ". Set request.test = 1 for debugging info.")) } := by
    simp only [doRequest, hreply]
    rw [if_pos hbad]
  refine ⟨h1, ?_, traceStep_bids st _⟩
  exact collectResult_err bidder adj conv st _ _ (by rw [h1])

/-- Witness for C5: a 503 reply. -/
theorem doRequest_bad_status_witness :
    doRequest outcomeC5 rdC5 =
      { request := some rdC5
        response := some { StatusCode := 503, Body := "oops", Headers := [("h", "v")] }
        err := some (PbsError.badServerResponse
          ("Server responded with failure status: " ++ toString (503 : Int) ++ ". Set request.test = 1 for debugging info.")) } ∧
    collectResult bidderC1 1 convC1 stC5 (doRequest outcomeC5 rdC5) =
      some ⟨stC5.Request, (traceStep stC5 (doRequest outcomeC5 rdC5)).seatBid,
            stC5.errs ++ [PbsError.badServerResponse
              ("Server responded with failure status: " ++ toString (503 : Int) ++ ". Set request.test = 1 for debugging info.")]⟩ ∧
    (traceStep stC5 (doRequest outcomeC5 rdC5)).seatBid.bids = stC5.seatBid.bids :=
  doRequest_bad_status outcomeC5 rdC5 503 "oops" [("h", "v")] bidderC1 1 convC1 stC5 rfl
    (Or.inr (by norm_num))

/-- C6 (code bug): a bid whose `AdM` is the JSON literal `null` makes
`addNativeTypes` dereference a nil `*nativeResponse.Response` pointer and
panic instead of silently skipping enrichment. -/
theorem addNativeTypes_null_adm_panics :
    addNativeTypes (some bidJnullC6) reqC6 = none := rfl

/-- C10: an issued timeout notification uses the method, URI and body of
the request built by `MakeTimeoutNotification`, but the headers of the
original timed-out request; and it is issued only when the plugin returned
a non-nil request with an empty error list. -/
theorem doTimeoutNotification_wire_format
    (mtn : RequestData → Option RequestData × List PbsError)
    (newRequestOk : String → String → Bool) (req : RequestData) (out : HttpRequestModel)
    (h : doTimeoutNotification mtn newRequestOk req = some out) :
    ∃ toReq, (mtn req).1 = some toReq ∧ (mtn req).2 = [] ∧
      out.Method = toReq.Method ∧ out.Uri = toReq.Uri ∧ out.Body = toReq.Body ∧
      out.Header = req.Headers := by
  unfold doTimeoutNotification at h
  dsimp only at h
  split at h
  · next toReq heq =>
    split at h
    · split at h
      · injection h with h'
        subst h'
        exact ⟨toReq, heq, by assumption, rfl, rfl, rfl, rfl⟩
      · exact Option.noConfusion h
    · exact Option.noConfusion h
  · exact Option.noConfusion h

/-- Witness for C10: a concrete notification run; the sent request carries
the original request's headers. -/
theorem doTimeoutNotification_wire_format_witness :
    ∃ toReq, (mtnC10 reqC10).1 = some toReq ∧ (mtnC10 reqC10).2 = [] ∧
      outC10.Method = toReq.Method ∧ outC10.Uri = toReq.Uri ∧ outC10.Body = toReq.Body ∧
      outC10.Header = reqC10.Headers :=
  doTimeoutNotification_wire_format mtnC10 newOkC10 reqC10 outC10 rfl

/-- C2 (amended): for each processed call result with a resolved rate, every
appended bid has price = plugin-reported price × bidAdjustment × the rate
from the (USD-defaulted) response currency to the currency code resolved
for *that* call result — the code written to `seatBid.currency` at that
moment; later call results may overwrite `seatBid.currency`, so the final
field matches only the last resolved batch.  Enrichment never changes
prices, types, video metadata or deal priorities. -/
theorem collectResult_price_conversion
    (bidder : Bidder) (adj : ℚ) (conv : Conversions) (st : CollectState) (info : httpCallInfo)
    (br0 : BidderResponse) (moreErrs : List PbsError) (c : String) (rate : ℚ)
    (bids' : List TypedBid) (nerrs : List PbsError)
    (herr : info.err = none)
    (hmb : bidder.MakeBids st.Request info.request info.response = (some br0, moreErrs))
    (hfr : findRate conv (normalizeRespCurrency br0).Currency (normalizeReqCur st.Request).Cur
            = RateResult.ok c rate)
    (hen : enrichStep (normalizeReqCur st.Request) br0.Bids = some (bids', nerrs)) :
    ∃ st', collectResult bidder adj conv st info = some st' ∧
      st'.seatBid.currency = c ∧
      st'.seatBid.bids = st.seatBid.bids ++ bids'.map (mkPbsOrtbBid adj rate) ∧
      bids'.map eraseAdM = br0.Bids.map eraseAdM ∧
      ∀ tb b, tb.Bid = some b →
        (mkPbsOrtbBid adj rate tb).bid = some {b with Price := b.Price * adj * rate} := by
  refine ⟨_, collectResult_ok bidder adj conv st info br0 moreErrs c rate bids' nerrs
    herr hmb hfr hen, rfl, rfl, ?_, ?_⟩
  · exact enrichStep_eraseAdM _ _ _ _ hen
  · intro tb b hb
    simp [mkPbsOrtbBid, hb]

/-- Witness for C2 (amended): a single EUR-resolved call result. -/
theorem collectResult_price_conversion_witness :
    ∃ st', collectResult bidderC2 1 convC2 stW2 infoW2 = some st' ∧
      st'.seatBid.currency = "EUR" ∧
      st'.seatBid.bids = stW2.seatBid.bids ++ ([tbC2 1]).map (mkPbsOrtbBid 1 2) ∧
      ([tbC2 1]).map eraseAdM =
        ({ Currency := "USD", Bids := [tbC2 1] } : BidderResponse).Bids.map eraseAdM ∧
      ∀ tb b, tb.Bid = some b →
        (mkPbsOrtbBid 1 2 tb).bid = some {b with Price := b.Price * 1 * 2} :=
  collectResult_price_conversion bidderC2 1 convC2 stW2 infoW2
    { Currency := "USD", Bids := [tbC2 1] } [] "EUR" 2 [tbC2 1] [] rfl rfl rfl rfl

/-- Counterexample to C2 as stated: with two call results resolving to
different currencies (USD→EUR for the first, ABC→GBP for the second), the
final `seatBid.currency` is "GBP", but the first bid was converted with
the USD→EUR rate 2, not the USD→GBP rate 5: its price is 2 ≠ 1·1·5. -/
theorem requestBid_price_final_currency_counterexample :
    requestBid bidderC2 runC2 reqC2 1 convC2 =
      some (some { bids := [mkPbsOrtbBid 1 2 (tbC2 1), mkPbsOrtbBid 1 3 (tbC2 1)]
                   currency := "GBP", httpCalls := [], ext := "" }, [], reqC2) ∧
    (bidderC2.MakeBids reqC2 (some rdC2a) (some rsC2)).1 =
      some { Currency := "USD", Bids := [tbC2 1] } ∧
    (mkPbsOrtbBid 1 2 (tbC2 1)).bid.map Bid.Price = some 2 ∧
    convC2.GetRate "USD" "GBP" = Except.ok 5 ∧
    (2 : ℚ) ≠ 1 * 1 * 5 := by
  refine ⟨rfl, rfl, ?_, rfl, by norm_num⟩
  simp [mkPbsOrtbBid, tbC2, bidC2]

/-- C3: the currency loop walks `request.Cur` in order, takes the first
code with a successful `GetRate`, writes it to `seatBid.currency` and
stops; when every code fails, exactly the last `GetRate` error is appended
(the earlier ones are dropped) and no bid from that call result reaches
`seatBid.bids`. -/
theorem currency_resolution_order :
    (∀ (conv : Conversions) (f : String) (pre : List String) (c : String) (post : List String) (r : ℚ),
      (∀ c' ∈ pre, ∃ e, conv.GetRate f c' = Except.error e) →
      conv.GetRate f c = Except.ok r →
      findRate conv f (pre ++ c :: post) = RateResult.ok c r) ∧
    (∀ (conv : Conversions) (f : String) (cs : List String) (e : PbsError),
      findRate conv f cs = RateResult.fail e →
      (∀ c ∈ cs, ∃ e', conv.GetRate f c = Except.error e') ∧
      (∀ cl, cs.getLast? = some cl → conv.GetRate f cl = Except.error e)) ∧
    (∀ (bidder : Bidder) (adj : ℚ) (conv : Conversions) (st : CollectState) (info : httpCallInfo)
        (br0 : BidderResponse) (moreErrs : List PbsError) (c : String) (rate : ℚ)
        (bids' : List TypedBid) (nerrs : List PbsError),
      info.err = none →
      bidder.MakeBids st.Request info.request info.response = (some br0, moreErrs) →
      findRate conv (normalizeRespCurrency br0).Currency (normalizeReqCur st.Request).Cur
        = RateResult.ok c rate →
      enrichStep (normalizeReqCur st.Request) br0.Bids = some (bids', nerrs) →
      ∃ st', collectResult bidder adj conv st info = some st' ∧ st'.seatBid.currency = c) ∧
    (∀ (bidder : Bidder) (adj : ℚ) (conv : Conversions) (st : CollectState) (info : httpCallInfo)
        (br0 : BidderResponse) (moreErrs : List PbsError) (e : PbsError)
        (bids' : List TypedBid) (nerrs : List PbsError),
      info.err = none →
      bidder.MakeBids st.Request info.request info.response = (some br0, moreErrs) →
      findRate conv (normalizeRespCurrency br0).Currency (normalizeReqCur st.Request).Cur
        = RateResult.fail e →
      enrichStep (normalizeReqCur st.Request) br0.Bids = some (bids', nerrs) →
      collectResult bidder adj conv st info =
        some ⟨normalizeReqCur st.Request, (traceStep st info).seatBid,
              st.errs ++ moreErrs ++ nerrs ++ [e]⟩) := by
  refine ⟨fun conv f => findRate_first_ok conv f,
          fun conv f => findRate_fail_spec conv f, ?_, ?_⟩
  · intro bidder adj conv st info br0 moreErrs c rate bids' nerrs herr hmb hfr hen
    exact ⟨_, collectResult_ok bidder adj conv st info br0 moreErrs c rate bids' nerrs
      herr hmb hfr hen, rfl⟩
  · intro bidder adj conv st info br0 moreErrs e bids' nerrs herr hmb hfr hen
    exact collectResult_fail bidder adj conv st info br0 moreErrs e bids' nerrs
      herr hmb hfr hen

/-- Witness for C3: concrete runs of all four parts (first-success order,
last-error reporting, currency write, and bid discarding). -/
theorem currency_resolution_order_witness :
    findRate convC3 "USD" (["AAA"] ++ "EUR" :: ["GBP"]) = RateResult.ok "EUR" 2 ∧
    ((∀ c ∈ ["EUR", "GBP"], ∃ e', convC3.GetRate "ABC" c = Except.error e') ∧
      (∀ cl, (["EUR", "GBP"] : List String).getLast? = some cl →
        convC3.GetRate "ABC" cl = Except.error (PbsError.generic "no rate to GBP"))) ∧
    (∃ st', collectResult bidderC3 1 convC3 stC3 infoC3 = some st' ∧
      st'.seatBid.currency = "EUR") ∧
    collectResult bidderC3b 1 convC3 stC3b infoC3 =
      some ⟨normalizeReqCur reqC3b, (traceStep stC3b infoC3).seatBid,
            [] ++ [] ++ [] ++ [PbsError.generic "no rate to GBP"]⟩ := by
  refine ⟨?_, ?_, ?_, ?_⟩
  · exact currency_resolution_order.1 convC3 "USD" ["AAA"] "EUR" ["GBP"] 2
      (fun c' hc' => by rcases List.mem_singleton.mp hc' with rfl; exact ⟨_, rfl⟩) rfl
  · exact currency_resolution_order.2.1 convC3 "ABC" ["EUR", "GBP"]
      (PbsError.generic "no rate to GBP") rfl
  · exact currency_resolution_order.2.2.1 bidderC3 1 convC3 stC3 infoC3
      { Currency := "USD", Bids := [] } [] "EUR" 2 [] [] rfl rfl rfl rfl
  · exact currency_resolution_order.2.2.2 bidderC3b 1 convC3 stC3b infoC3
      { Currency := "ABC", Bids := [] } [] (PbsError.generic "no rate to GBP") [] []
      rfl rfl rfl rfl

/-- C4: in a returned seat bid, the debug trace list has one entry per
drained call result when `request.Test == 1` and is empty otherwise; so
(given at least one call result) it is non-empty iff `Test == 1`. -/
theorem requestBid_httpCalls_test (bidder : Bidder)
    (httpRun : List RequestData → List httpCallInfo) (request : BidRequest)
    (adj : ℚ) (conv : Conversions)
    (sb : pbsOrtbSeatBid) (errs : List PbsError) (req' : BidRequest)
    (h : requestBid bidder httpRun request adj conv = some (some sb, errs, req')) :
    sb.httpCalls.length =
      (if request.Test = 1 then (httpRun (bidder.MakeRequests request).1).length else 0) ∧
    (httpRun (bidder.MakeRequests request).1 ≠ [] → (sb.httpCalls ≠ [] ↔ request.Test = 1)) := by
  obtain ⟨st, hf, hsb, herrs, hreq⟩ :=
    requestBid_some_seatbid bidder httpRun request adj conv sb errs req' h
  have hfr := foldResults_frame bidder adj conv _ _ _ hf
  rcases hfr with ⟨_, _, _, _, hlen⟩
  subst hsb
  simp only [initSeatBid, List.length_nil, Nat.zero_add] at hlen
  constructor
  · exact hlen
  · intro hne
    constructor
    · intro hcalls
      by_contra hT
      rw [if_neg hT] at hlen
      exact hcalls (List.length_eq_zero.mp hlen)
    · intro hT
      rw [if_pos hT] at hlen
      intro hempty
      rw [hempty] at hlen
      exact hne (List.length_eq_zero.mp hlen.symm)

/-- Witness for C4: one timed-out call result under `Test == 1` produces
exactly one trace entry. -/
theorem requestBid_httpCalls_test_witness :
    sbC4.httpCalls.length =
      (if reqC4.Test = 1 then (runC4 (bidderC4.MakeRequests reqC4).1).length else 0) ∧
    (runC4 (bidderC4.MakeRequests reqC4).1 ≠ [] → (sbC4.httpCalls ≠ [] ↔ reqC4.Test = 1)) :=
  requestBid_httpCalls_test bidderC4 runC4 reqC4 1 convC1 sbC4 [PbsError.timeout "t"] reqC4 rfl

/-- C7: enriching a well-formed native markup against a native request
payload whose assets all have zero `Img.Type` and zero `Data.Type` (and
which has a matching asset, of matching kind, for every markup asset)
returns the markup unchanged with no errors, so the re-serialized `AdM`
equals the original markup JSON (modulo key order, i.e. equality of the
parsed values). -/
theorem addNativeTypes_zero_type_roundtrip
    (bid : Bid) (request : BidRequest) (m : NativeResp) (nimp : NativeObj) (pay : NativeReq)
    (hadm : bid.AdM = AdmVal.jresp m)
    (hne : m.Assets ≠ [])
    (himp : getNativeImpByImpID bid.ImpID request = Except.ok nimp)
    (hpay : nimp.Request = NativeReqVal.wellFormed pay)
    (hz : ∀ ra ∈ pay.Assets, (∀ i, ra.Img = some i → i.Typ = 0) ∧ (∀ d, ra.Data = some d → d.Typ = 0))
    (hmatch : ∀ a ∈ m.Assets, ∃ ra, getAssetByID a.ID pay.Assets = Except.ok ra ∧
      (a.Img.isSome → ra.Img.isSome) ∧ (a.Data.isSome → ra.Data.isSome)) :
    addNativeTypes (some bid) request = some (some m, []) ∧ AdmVal.jresp m = bid.AdM := by
  have hall : ∀ a ∈ m.Assets, setAssetTypes a pay = (a, none) := by
    intro a ha
    obtain ⟨ra, hget, hI, hD⟩ := hmatch a ha
    exact setAssetTypes_zero_matched a pay hz ra hget hI hD
  have hres := setAssetTypes_results pay m.Assets hall
  refine ⟨?_, hadm.symm⟩
  unfold addNativeTypes
  simp only [hadm]
  rw [if_neg (by simpa using hne)]
  rw [himp]
  simp only [hpay]
  rw [hres.1, hres.2]
  simp

/-- Witness for C7: one image asset, request type 0. -/
theorem addNativeTypes_zero_type_roundtrip_witness :
    addNativeTypes (some bidC7) reqC7 = some (some mC7, []) ∧ AdmVal.jresp mC7 = bidC7.AdM :=
  addNativeTypes_zero_type_roundtrip bidC7 reqC7 mC7 nimpC7 payC7 rfl (by decide) rfl rfl
    (by
      intro ra hra
      rcases List.mem_singleton.mp hra with rfl
      constructor
      · intro i hi
        injection hi with hh
        rw [← hh]
      · intro d hd
        exact Option.noConfusion hd)
    (by
      intro a ha
      rcases List.mem_singleton.mp ha with rfl
      exact ⟨qaC7, rfl, fun _ => rfl, fun hds => by simp [raC7] at hds⟩)

/-- C8: `requestBid` never changes `Test`, `App` or `Imp` of the borrowed
request; `Cur` is either left unchanged or — only when it was empty at the
time a bid response was processed — set to `["USD"]`. -/
theorem requestBid_request_frame (bidder : Bidder)
    (httpRun : List RequestData → List httpCallInfo) (request : BidRequest)
    (adj : ℚ) (conv : Conversions)
    (sbOpt : Option pbsOrtbSeatBid) (errs : List PbsError) (req' : BidRequest)
    (h : requestBid bidder httpRun request adj conv = some (sbOpt, errs, req')) :
    req'.Test = request.Test ∧ req'.App = request.App ∧ req'.Imp = request.Imp ∧
    (req'.Cur = request.Cur ∨ (request.Cur = [] ∧ req'.Cur = ["USD"])) := by
  by_cases hrd : (bidder.MakeRequests request).1 = []
  · simp only [requestBid] at h
    rw [if_pos hrd] at h
    split at h <;>
      (injection h with h'
       injection h' with h1 h2
       injection h2 with h2a h2b
       subst h2b
       exact ⟨rfl, rfl, rfl, Or.inl rfl⟩)
  · simp only [requestBid] at h
    rw [if_neg hrd] at h
    cases hf : foldResults bidder adj conv ⟨request, initSeatBid, (bidder.MakeRequests request).2⟩
        (httpRun (bidder.MakeRequests request).1) with
    | none => rw [hf] at h; exact Option.noConfusion h
    | some st =>
      rw [hf] at h
      injection h with h'
      injection h' with h1 h2
      injection h2 with h2a h2b
      subst h2b
      have hfr := foldResults_frame bidder adj conv _ _ _ hf
      exact ⟨hfr.1, hfr.2.1, hfr.2.2.1, hfr.2.2.2.1⟩

/-- Witness for C8: an empty `Cur` list is set to `["USD"]` while `Test`,
`App` and `Imp` are unchanged. -/
theorem requestBid_request_frame_witness :
    reqC8'.Test = reqC8.Test ∧ reqC8'.App = reqC8.App ∧ reqC8'.Imp = reqC8.Imp ∧
    (reqC8'.Cur = reqC8.Cur ∨ (reqC8.Cur = [] ∧ reqC8'.Cur = ["USD"])) :=
  requestBid_request_frame bidderC8 runC8 reqC8 1 convC8
    (some { bids := [], currency := "USD", httpCalls := [], ext := "" }) [] reqC8' rfl

/-- C9 (amended): an entry with a nil bid pointer is still materialized —
with a nil bid and the entry's type, video metadata and deal priority —
provided the native-enrichment pass completes; when the request has `App`
set and the entry's type is native, the code instead panics in
`addNativeTypes` (nil-pointer dereference) and no seat bid is returned. -/
theorem collectResult_nil_bid_appended
    (bidder : Bidder) (adj : ℚ) (conv : Conversions) (st : CollectState) (info : httpCallInfo)
    (br0 : BidderResponse) (moreErrs : List PbsError) (c : String) (rate : ℚ)
    (bids' : List TypedBid) (nerrs : List PbsError) (tb : TypedBid)
    (herr : info.err = none)
    (hmb : bidder.MakeBids st.Request info.request info.response = (some br0, moreErrs))
    (hfr : findRate conv (normalizeRespCurrency br0).Currency (normalizeReqCur st.Request).Cur
            = RateResult.ok c rate)
    (hen : enrichStep (normalizeReqCur st.Request) br0.Bids = some (bids', nerrs))
    (hmem : tb ∈ br0.Bids) (hnil : tb.Bid = none) :
    ∃ st', collectResult bidder adj conv st info = some st' ∧
      ({ bid := none, bidType := tb.BidType, bidTargets := [], bidVideo := tb.BidVideo,
         dealPriority := tb.DealPriority } : pbsOrtbBid) ∈ st'.seatBid.bids := by
  refine ⟨_, collectResult_ok bidder adj conv st info br0 moreErrs c rate bids' nerrs
    herr hmb hfr hen, ?_⟩
  have htb' : tb ∈ bids' := enrichStep_nilBid_mem _ _ _ _ tb hen hmem hnil
  have hmk : mkPbsOrtbBid adj rate tb =
      { bid := none, bidType := tb.BidType, bidTargets := [], bidVideo := tb.BidVideo,
        dealPriority := tb.DealPriority } := by
    simp [mkPbsOrtbBid, hnil]
  show _ ∈ st.seatBid.bids ++ bids'.map (mkPbsOrtbBid adj rate)
  exact List.mem_append_right _ (hmk ▸ List.mem_map_of_mem (mkPbsOrtbBid adj rate) htb')

/-- Witness for C9 (amended): a banner-typed nil-bid entry on an app
request is appended with nil bid, its type and deal priority. -/
theorem collectResult_nil_bid_appended_witness :
    ∃ st', collectResult bidderW9 1 convC9 stW9 infoW9 = some st' ∧
      ({ bid := none, bidType := tbNilW9.BidType, bidTargets := [], bidVideo := tbNilW9.BidVideo,
         dealPriority := tbNilW9.DealPriority } : pbsOrtbBid) ∈ st'.seatBid.bids :=
  collectResult_nil_bid_appended bidderW9 1 convC9 stW9 infoW9
    { Currency := "USD", Bids := [tbNilW9] } [] "USD" 1 [tbNilW9] [] tbNilW9
    rfl rfl rfl rfl (List.mem_singleton.mpr rfl) rfl

/-- Counterexample to C9 as stated: a native-typed entry with a nil bid on
a mobile-app request, with a successful currency resolution, makes the
collection loop panic (nil-pointer dereference in `addNativeTypes`): no
seat bid is returned at all, so the entry is not appended. -/
theorem requestBid_nil_native_bid_counterexample :
    requestBid bidderC9 runC9 reqC9 1 convC9 = none ∧
    tbNilC9.Bid = none ∧ tbNilC9.BidType = BidType.native ∧ reqC9.App.isSome = true ∧
    convC9.GetRate "USD" "USD" = Except.ok 1 :=
  ⟨rfl, rfl, rfl, rfl, rfl⟩

end PrebidBidder
